import Mathlib

/-!
Verification of the InvoiceAssistant invoice-totals engine.

The definitions below are a shallow embedding of the totals arithmetic of
`src/frontend/src/pages/InvoiceEditorPage.tsx`:
`calcSubtotal` (lines 27-29), the live totals `subtotal`, `discountTotal`,
`taxTotal`, `grandTotal` (lines 73-79), `defaultLineItem` (lines 15-25),
and the line-item row add/remove logic of the editor (lines 179-183 and
240-248).  Numbers are modelled by exact rationals: the specification
treats addition as commutative and associative and floating-point drift as
out of contract.
-/

namespace InvoiceAssistant

/-- A line item of the extended schema, as edited by `InvoiceEditorPage`
(fields of `defaultLineItem`, lines 15-25 of InvoiceEditorPage.tsx). -/
structure LineItem where
  description : String
  quantity : ℚ
  unit : String
  unit_price : ℚ
  discount_pct : ℚ
  tax_pct : ℚ
  subtotal : ℚ
  deriving Repr, DecidableEq

/-- Function `defaultLineItem()` from InvoiceEditorPage.tsx lines 15-25. -/
def defaultLineItem : LineItem :=
  { description := ""
    quantity := 1
    unit := "item"
    unit_price := 0
    discount_pct := 0
    tax_pct := 0
    subtotal := 0 }

/-- Function `calcSubtotal(qty, price, disc)` from InvoiceEditorPage.tsx lines 27-29:
`qty * price * (1 - disc / 100)`. -/
def calcSubtotal (qty price disc : ℚ) : ℚ :=
  qty * price * (1 - disc / 100)

/-- Definition `subtotal` from InvoiceEditorPage.tsx line 73: a left fold (JS `reduce`
with initial accumulator `0`) adding the `calcSubtotal` of each line. -/
def subtotal (lineItems : List LineItem) : ℚ :=
  lineItems.foldl (fun s li => s + calcSubtotal li.quantity li.unit_price li.discount_pct) 0

/-- Definition `discountTotal` from InvoiceEditorPage.tsx line 74. -/
def discountTotal (lineItems : List LineItem) : ℚ :=
  lineItems.foldl (fun s li => s + li.quantity * li.unit_price * (li.discount_pct / 100)) 0

/-- Definition `taxTotal` from InvoiceEditorPage.tsx lines 75-78: folds
`base * (tax_pct / 100)` where `base` is the `calcSubtotal` of the line. -/
def taxTotal (lineItems : List LineItem) : ℚ :=
  lineItems.foldl
    (fun s li => s + calcSubtotal li.quantity li.unit_price li.discount_pct * (li.tax_pct / 100))
    0

/-- Definition `grandTotal` from InvoiceEditorPage.tsx line 79: `subtotal + taxTotal`. -/
def grandTotal (lineItems : List LineItem) : ℚ :=
  subtotal lineItems + taxTotal lineItems

/-- The invoice-level totals record (the `totals` shape of the editor
default values, InvoiceEditorPage.tsx line 62). -/
structure Totals where
  subtotal : ℚ
  discount_total : ℚ
  tax_total : ℚ
  grand_total : ℚ
  deriving Repr, DecidableEq

/-- The aggregate operation of the InvoiceTotalsEngine of the spec, as the code
computes it: the four live totals of InvoiceEditorPage.tsx lines 73-79
packaged as one record. -/
def aggregate (lineItems : List LineItem) : Totals :=
  { subtotal := subtotal lineItems
    discount_total := discountTotal lineItems
    tax_total := taxTotal lineItems
    grand_total := grandTotal lineItems }

/-- The operation `lineTax(lineSubtotalAmount, taxPct)` of the spec, written as a
named function following the words of the spec; the code computes it inline at
InvoiceEditorPage.tsx line 77 (`base * (+li.tax_pct / 100)`). -/
def lineTax (lineSubtotalAmount taxPct : ℚ) : ℚ :=
  lineSubtotalAmount * (taxPct / 100)

/-- The row-level actions the editor offers on its line-item array
(InvoiceEditorPage.tsx lines 179-183, 200-252): add a row, remove the row at
an index, or edit the row at an index. -/
inductive EditorAction where
  | add : EditorAction
  | removeRow : Nat → EditorAction
  | setRow : Nat → LineItem → EditorAction

/-- One UI action on the line-item array of the editor.
`add` appends `defaultLineItem()` (InvoiceEditorPage.tsx line 179);
`removeRow i` calls `remove(i)`, but the button is disabled when
`fields.length === 1` (lines 244-245), so the state is unchanged then;
`setRow` is a keystroke edit of an existing row, which leaves the length
unchanged. -/
def editorStep (items : List LineItem) : EditorAction → List LineItem
  | EditorAction.add => items ++ [defaultLineItem]
  | EditorAction.removeRow i => if items.length = 1 then items else items.eraseIdx i
  | EditorAction.setRow i li => items.set i li

/-- The line-item array of a fresh editor (no router state and no stored
draft): `line_items: [defaultLineItem()]`, InvoiceEditorPage.tsx line 61. -/
def initialLineItems : List LineItem := [defaultLineItem]

/-- Line-item arrays reachable in the editor from a fresh start by UI
actions. -/
inductive Reachable : List LineItem → Prop where
  | init : Reachable initialLineItems
  | step {s : List LineItem} (a : EditorAction) : Reachable s → Reachable (editorStep s a)

/-- A fold that adds `f` of each element equals the initial accumulator plus
the sum of the mapped list. -/
theorem foldl_add_map_sum (f : LineItem → ℚ) :
    ∀ (l : List LineItem) (s : ℚ), l.foldl (fun a x => a + f x) s = s + (l.map f).sum := by
  intro l
  induction l with
  | nil => intro s; simp
  | cons x xs ih =>
    intro s
    simp only [List.foldl_cons, List.map_cons, List.sum_cons, ih]
    ring

theorem subtotal_eq_sum (l : List LineItem) :
    subtotal l =
      (l.map (fun li => calcSubtotal li.quantity li.unit_price li.discount_pct)).sum := by
  simpa using foldl_add_map_sum _ l 0

theorem discountTotal_eq_sum (l : List LineItem) :
    discountTotal l =
      (l.map (fun li => li.quantity * li.unit_price * (li.discount_pct / 100))).sum := by
  simpa using foldl_add_map_sum _ l 0

theorem taxTotal_eq_sum (l : List LineItem) :
    taxTotal l =
      (l.map (fun li =>
        calcSubtotal li.quantity li.unit_price li.discount_pct * (li.tax_pct / 100))).sum := by
  simpa using foldl_add_map_sum _ l 0

/-- C1: for every list of line items, the aggregate totals satisfy
`grand_total = subtotal + tax_total`. -/
theorem aggregate_grand_total_eq_subtotal_add_tax_total (l : List LineItem) :
    (aggregate l).grand_total = (aggregate l).subtotal + (aggregate l).tax_total := rfl

/-- C2: for all non-negative quantity and unitPrice and discountPct in
[0,100], `calcSubtotal` returns `quantity * unitPrice * (1 - discountPct/100)`;
in particular with discountPct 0 it returns `quantity * unitPrice`. -/
theorem calcSubtotal_formula (q p d : ℚ) (hq : 0 ≤ q) (hp : 0 ≤ p)
    (hd0 : 0 ≤ d) (hd1 : d ≤ 100) :
    calcSubtotal q p d = q * p * (1 - d / 100) ∧ calcSubtotal q p 0 = q * p := by
  refine ⟨rfl, ?_⟩
  unfold calcSubtotal
  ring

/-- Witness for C2 at quantity 2, unitPrice 3, discountPct 50. -/
theorem calcSubtotal_formula_witness :
    calcSubtotal 2 3 50 = 2 * 3 * (1 - 50 / 100) ∧ calcSubtotal 2 3 0 = 2 * 3 :=
  calcSubtotal_formula 2 3 50 (by norm_num) (by norm_num) (by norm_num) (by norm_num)

/-- C3 counterexample: for the invalid input quantity = -1 (with unitPrice 2,
discountPct 0), `calcSubtotal` does not fail; it returns the ordinary
amount -2. -/
theorem calcSubtotal_no_error_on_negative :
    calcSubtotal (-1) 2 0 = -2 := by
  unfold calcSubtotal; norm_num

/-- C3 amended: `calcSubtotal` performs no input validation; even when
quantity or unitPrice is negative or discountPct is outside [0,100], it
returns the ordinary amount `quantity * unitPrice * (1 - discountPct/100)`
rather than failing. -/
theorem calcSubtotal_total_on_invalid (q p d : ℚ)
    (h : q < 0 ∨ p < 0 ∨ d < 0 ∨ 100 < d) :
    calcSubtotal q p d = q * p * (1 - d / 100) := rfl

/-- Witness for the amended C3 at quantity -1, unitPrice 2, discountPct 0. -/
theorem calcSubtotal_total_on_invalid_witness :
    calcSubtotal (-1) 2 0 = (-1) * 2 * (1 - 0 / 100) :=
  calcSubtotal_total_on_invalid (-1) 2 0 (Or.inl (by norm_num))

/-- C5: `aggregate` on the empty list of line items returns
subtotal = discountTotal = taxTotal = grandTotal = 0. -/
theorem aggregate_nil :
    aggregate [] =
      { subtotal := 0, discount_total := 0, tax_total := 0, grand_total := 0 } := by
  norm_num [aggregate, subtotal, discountTotal, taxTotal, grandTotal]

/-- C6 counterexample: with quantity 0, unitPrice 5, discountPct 50 (all in
the claimed ranges), `calcSubtotal 0 5 50 = 0 * 5` although the discount is
not 0, so equality does not hold only when d = 0. -/
theorem calcSubtotal_le_equality_not_iff :
    calcSubtotal 0 5 50 = 0 * 5 ∧ (50 : ℚ) ≠ 0 := by
  constructor
  · unfold calcSubtotal; norm_num
  · norm_num

/-- C6 amended: for non-negative quantity and unitPrice and discountPct in
[0,100], `calcSubtotal q p d ≤ q * p`, and equality holds if and only if
`d = 0` or `q * p = 0`. -/
theorem calcSubtotal_le_mul (q p d : ℚ) (hq : 0 ≤ q) (hp : 0 ≤ p)
    (hd0 : 0 ≤ d) (hd1 : d ≤ 100) :
    calcSubtotal q p d ≤ q * p ∧ (calcSubtotal q p d = q * p ↔ d = 0 ∨ q * p = 0) := by
  have hqp : 0 ≤ q * p := mul_nonneg hq hp
  have hshape : calcSubtotal q p d = q * p - q * p * (d / 100) := by
    unfold calcSubtotal; ring
  constructor
  · rw [hshape]
    have : 0 ≤ q * p * (d / 100) := by positivity
    linarith
  · rw [hshape]
    constructor
    · intro h
      have hzero : q * p * (d / 100) = 0 := by linarith
      rcases mul_eq_zero.mp hzero with h1 | h2
      · exact Or.inr h1
      · left
        have : d = 0 := by
          field_simp at h2
          exact h2
        exact this
    · intro h
      rcases h with h | h
      · rw [h]; ring
      · rw [h]; ring

/-- Witness for the amended C6 at quantity 2, unitPrice 3, discountPct 50. -/
theorem calcSubtotal_le_mul_witness :
    calcSubtotal 2 3 50 ≤ 2 * 3 ∧
      (calcSubtotal 2 3 50 = 2 * 3 ↔ (50 : ℚ) = 0 ∨ (2 : ℚ) * 3 = 0) :=
  calcSubtotal_le_mul 2 3 50 (by norm_num) (by norm_num) (by norm_num) (by norm_num)

/-- C7: `aggregate` computes discountTotal as the sum over lines of
`quantity * unitPrice * discountPct/100`, and taxTotal as the sum over lines
of `lineTax` applied to the discounted subtotal of that line. -/
theorem aggregate_discount_tax_sums (l : List LineItem) :
    (aggregate l).discount_total =
      (l.map (fun li => li.quantity * li.unit_price * (li.discount_pct / 100))).sum ∧
    (aggregate l).tax_total =
      (l.map (fun li =>
        lineTax (calcSubtotal li.quantity li.unit_price li.discount_pct) li.tax_pct)).sum := by
  exact ⟨discountTotal_eq_sum l, taxTotal_eq_sum l⟩

/-- C9: for every list of line items, the computed invoice subtotal plus the
computed discountTotal equals the undiscounted gross sum of
`quantity * unit_price` over the lines. -/
theorem subtotal_add_discountTotal_eq_gross (l : List LineItem) :
    subtotal l + discountTotal l = (l.map (fun li => li.quantity * li.unit_price)).sum := by
  rw [subtotal_eq_sum, discountTotal_eq_sum]
  induction l with
  | nil => simp
  | cons x xs ih =>
    simp only [List.map_cons, List.sum_cons]
    rw [add_add_add_comm, ih]
    unfold calcSubtotal
    ring_nf

/-- C4: `aggregate` is order-independent: permuting the line items leaves
all four totals unchanged. -/
theorem aggregate_perm_invariant (l1 l2 : List LineItem) (h : l1.Perm l2) :
    aggregate l1 = aggregate l2 := by
  have hs : subtotal l1 = subtotal l2 := by
    rw [subtotal_eq_sum, subtotal_eq_sum]
    exact (h.map _).sum_eq
  have hd : discountTotal l1 = discountTotal l2 := by
    rw [discountTotal_eq_sum, discountTotal_eq_sum]
    exact (h.map _).sum_eq
  have ht : taxTotal l1 = taxTotal l2 := by
    rw [taxTotal_eq_sum, taxTotal_eq_sum]
    exact (h.map _).sum_eq
  simp [aggregate, grandTotal, hs, hd, ht]

/-- Witness for C4: swapping two concrete line items leaves the totals
unchanged. -/
theorem aggregate_perm_invariant_witness :
    aggregate
      [{ description := "consulting", quantity := 2, unit := "hour", unit_price := 150,
         discount_pct := 10, tax_pct := 5, subtotal := 0 },
       { description := "hosting", quantity := 1, unit := "item", unit_price := 40,
         discount_pct := 0, tax_pct := 20, subtotal := 0 }] =
    aggregate
      [{ description := "hosting", quantity := 1, unit := "item", unit_price := 40,
         discount_pct := 0, tax_pct := 20, subtotal := 0 },
       { description := "consulting", quantity := 2, unit := "hour", unit_price := 150,
         discount_pct := 10, tax_pct := 5, subtotal := 0 }] :=
  aggregate_perm_invariant _ _ (List.Perm.swap _ _ _)

/-- C8: when every line has non-negative quantity and unit price and
percentages in [0,100], each per-line subtotal and all four aggregate totals
are non-negative. -/
theorem totals_nonneg (l : List LineItem)
    (h : ∀ li ∈ l, 0 ≤ li.quantity ∧ 0 ≤ li.unit_price ∧
      0 ≤ li.discount_pct ∧ li.discount_pct ≤ 100 ∧ 0 ≤ li.tax_pct ∧ li.tax_pct ≤ 100) :
    (∀ li ∈ l, 0 ≤ calcSubtotal li.quantity li.unit_price li.discount_pct) ∧
    0 ≤ subtotal l ∧ 0 ≤ discountTotal l ∧ 0 ≤ taxTotal l ∧ 0 ≤ grandTotal l := by
  have hline : ∀ li ∈ l, 0 ≤ calcSubtotal li.quantity li.unit_price li.discount_pct := by
    intro li hli
    obtain ⟨hq, hp, hd0, hd1, _, _⟩ := h li hli
    have hfac : 0 ≤ 1 - li.discount_pct / 100 := by linarith
    exact mul_nonneg (mul_nonneg hq hp) hfac
  have hsub : 0 ≤ subtotal l := by
    rw [subtotal_eq_sum]
    refine List.sum_nonneg ?_
    intro x hx
    rcases List.mem_map.mp hx with ⟨li, hli, rfl⟩
    exact hline li hli
  have hdisc : 0 ≤ discountTotal l := by
    rw [discountTotal_eq_sum]
    refine List.sum_nonneg ?_
    intro x hx
    rcases List.mem_map.mp hx with ⟨li, hli, rfl⟩
    obtain ⟨hq, hp, hd0, _, _, _⟩ := h li hli
    have : (0 : ℚ) ≤ li.discount_pct / 100 := by positivity
    exact mul_nonneg (mul_nonneg hq hp) this
  have htax : 0 ≤ taxTotal l := by
    rw [taxTotal_eq_sum]
    refine List.sum_nonneg ?_
    intro x hx
    rcases List.mem_map.mp hx with ⟨li, hli, rfl⟩
    obtain ⟨_, _, _, _, ht0, _⟩ := h li hli
    have : (0 : ℚ) ≤ li.tax_pct / 100 := by positivity
    exact mul_nonneg (hline li hli) this
  exact ⟨hline, hsub, hdisc, htax, add_nonneg hsub htax⟩

/-- Witness for C8 on the one-row default line-item list. -/
theorem totals_nonneg_witness :
    (∀ li ∈ initialLineItems, 0 ≤ calcSubtotal li.quantity li.unit_price li.discount_pct) ∧
    0 ≤ subtotal initialLineItems ∧ 0 ≤ discountTotal initialLineItems ∧
    0 ≤ taxTotal initialLineItems ∧ 0 ≤ grandTotal initialLineItems := by
  refine totals_nonneg initialLineItems ?_
  intro li hli
  simp only [initialLineItems, List.mem_singleton] at hli
  subst hli
  refine ⟨?_, ?_, ?_, ?_, ?_, ?_⟩ <;> norm_num [defaultLineItem]

/-- Helper: removing one index shortens a list by at most one element. -/
theorem length_eraseIdx_ge {α : Type} :
    ∀ (l : List α) (i : Nat), l.length - 1 ≤ (l.eraseIdx i).length := by
  intro l
  induction l with
  | nil => intro i; simp
  | cons x xs ih =>
    intro i
    cases i with
    | zero => simp [List.eraseIdx]
    | succ j =>
      have := ih j
      simp only [List.eraseIdx, List.length_cons]
      omega

/-- Helper: every reachable line-item array is non-empty. -/
theorem reachable_length_pos : ∀ s, Reachable s → 1 ≤ s.length := by
  intro s hs
  induction hs with
  | init => simp [initialLineItems]
  | @step t a hprev ih =>
    cases a with
    | add => simp [editorStep]
    | removeRow i =>
      simp only [editorStep]
      split
      · exact ih
      · have := length_eraseIdx_ge t i
        omega
    | setRow i li => simpa [editorStep] using ih

/-- C10: a fresh editor has exactly one default row (quantity 1, unit
"item", unit price 0, discount 0, tax 0, subtotal 0), adding appends a
default row, removing is a no-op when only one row remains, and every
reachable editor state has at least one line item. -/
theorem editor_line_items_nonempty :
    initialLineItems = [defaultLineItem] ∧
    defaultLineItem.quantity = 1 ∧ defaultLineItem.unit = "item" ∧
    defaultLineItem.unit_price = 0 ∧ defaultLineItem.discount_pct = 0 ∧
    defaultLineItem.tax_pct = 0 ∧ defaultLineItem.subtotal = 0 ∧
    (∀ s, editorStep s EditorAction.add = s ++ [defaultLineItem]) ∧
    (∀ s i, s.length = 1 → editorStep s (EditorAction.removeRow i) = s) ∧
    ∀ s, Reachable s → 1 ≤ s.length := by
  refine ⟨rfl, rfl, rfl, rfl, rfl, rfl, rfl, fun s => rfl, ?_, reachable_length_pos⟩
  intro s i h1
  simp [editorStep, h1]

/-- Witness for C10: after one add on a fresh editor the row count is still
at least one. -/
theorem editor_line_items_nonempty_witness :
    1 ≤ (editorStep initialLineItems EditorAction.add).length :=
  editor_line_items_nonempty.2.2.2.2.2.2.2.2.2
    (editorStep initialLineItems EditorAction.add)
    (Reachable.step EditorAction.add Reachable.init)

end InvoiceAssistant
